import Mathlib

/-!
Verification of the research-progress reconciliation engine of this
repository (the `ResearchProgressView` component and its helpers).

The embedding follows the source: `PHASE_CONFIG` becomes `progressMin` /
`progressMax`, `calculateProgress` is translated field by field,
`researchState` is the merge of the pulled API snapshot with the pushed
WebSocket state, and the inline monotonic-progress guard around
`maxProgressRef` (reset check, then max update) becomes `guardStep` /
`renderStep`.  Percentages are modelled as rationals, counters as naturals.
-/

/-- The `ResearchPhase` enumeration from the UI types: the five lifecycle
phases of a research job. -/
inductive ResearchPhase where
  | idle
  | scanning
  | analyzing
  | documenting
  | complete
deriving DecidableEq

/-- Lower bound of the phase's nominal progress interval (`progressMin`
in `PHASE_CONFIG`). -/
def progressMin : ResearchPhase → ℚ
  | .idle => 0
  | .scanning => 5
  | .analyzing => 25
  | .documenting => 75
  | .complete => 100

/-- Upper bound of the phase's nominal progress interval (`progressMax`
in `PHASE_CONFIG`). -/
def progressMax : ResearchPhase → ℚ
  | .idle => 5
  | .scanning => 25
  | .analyzing => 75
  | .documenting => 95
  | .complete => 100

/-- The progress estimator `calculateProgress(phase, filesScanned,
findingsCount)`.  The source's `default` switch branch is unreachable:
the five named cases cover the whole `ResearchPhase` enum. -/
def calculateProgress (phase : ResearchPhase)
    (filesScanned : ℕ) (findingsCount : ℕ) : ℚ :=
  match phase with
  | .idle => 5
  | .scanning => 5 + min ((filesScanned : ℚ) / 50) 1 * 20
  | .analyzing => 25 + min ((findingsCount : ℚ) / 25) 1 * 50
  | .documenting => 85
  | .complete => 100

/-- One activity-log entry delivered on the push (WebSocket) channel
(`ResearchLogEntry`). -/
structure ResearchLogEntry where
  timestamp : String
  eventType : String
  message : String
deriving DecidableEq

/-- The pushed WebSocket research state (`wsResearchState` from
`useProjectWebSocket`): phase and counters as reported by the push
channel, the currently executing tool, and the activity logs. -/
structure WsResearchState where
  phase : ResearchPhase
  filesScanned : ℕ
  findingsCount : ℕ
  finalized : Bool
  currentTool : Option String
  filesWritten : List String
  logs : List ResearchLogEntry
deriving DecidableEq

/-- The pulled API status snapshot (`apiStatus` from the research-status
endpoint), snake_case on the wire; every field may be absent, the
component applying `??` defaults. -/
structure ApiStatus where
  phase : Option ResearchPhase
  files_scanned : Option ℕ
  findings_count : Option ℕ
  finalized : Option Bool
deriving DecidableEq

/-- The merged view the component renders from (the shape produced by the
`researchState` IIFE). -/
structure ReconciledState where
  phase : ResearchPhase
  filesScanned : ℕ
  findingsCount : ℕ
  finalized : Bool
  currentTool : Option String
  filesWritten : List String
  logs : List ResearchLogEntry
deriving DecidableEq

/-- The merge of the pulled API snapshot with the pushed WebSocket state
(the `researchState` IIFE): when API data is present it is authoritative
for phase, counters and `finalized`, with tool and logs taken from the
WebSocket; when only WebSocket data is present its counters are zeroed;
with neither, the result is `none`. -/
def researchState (apiStatus : Option ApiStatus)
    (wsResearchState : Option WsResearchState) : Option ReconciledState :=
  let apiState : Option ReconciledState := apiStatus.map (fun a =>
    { phase := a.phase.getD .idle
      filesScanned := a.files_scanned.getD 0
      findingsCount := a.findings_count.getD 0
      finalized := a.finalized.getD false
      currentTool := wsResearchState.bind (·.currentTool)
      filesWritten := []
      logs := (wsResearchState.map (·.logs)).getD [] })
  match apiState, wsResearchState with
  | none, some ws =>
      some { ws with filesScanned := 0, findingsCount := 0 }
  | _, _ => apiState

/-- The reset test on line 301 of the component: phase is `idle` (the
`!currentPhase` disjunct is dead, `currentPhase` having been defaulted
to `idle`), or phase is `scanning` with zero findings. -/
def resetCondition (currentPhase : ResearchPhase) (findingsCount : ℕ) : Bool :=
  currentPhase == ResearchPhase.idle ||
    (currentPhase == ResearchPhase.scanning && findingsCount == 0)

/-- The monotonic-progress guard around `maxProgressRef`: zero the stored
maximum when the reset condition holds, then raise it to the raw estimate
if that is larger; the returned value is both the new stored maximum and
the displayed progress. -/
def guardStep (maxSeen : ℚ) (reset : Bool) (raw : ℚ) : ℚ :=
  let m := if reset then 0 else maxSeen
  if raw > m then raw else m

/-- What one render pass derives from the reconciled state (lines
291-312): defaulted phase and counters, the guarded progress, and the
logs handed to the activity panel. -/
structure ViewOutput where
  currentPhase : ResearchPhase
  filesScanned : ℕ
  findingsCount : ℕ
  progress : ℚ
  maxProgressAfter : ℚ
  logs : List ResearchLogEntry
deriving DecidableEq

/-- One render pass of the component over the current reconciled state
and the stored `maxProgressRef` value. -/
def renderStep (maxProgress : ℚ) (state : Option ReconciledState) : ViewOutput :=
  let currentPhase := (state.map (·.phase)).getD .idle
  let filesScanned := (state.map (·.filesScanned)).getD 0
  let findingsCount := (state.map (·.findingsCount)).getD 0
  let rawProgress := calculateProgress currentPhase filesScanned findingsCount
  let progress := guardStep maxProgress (resetCondition currentPhase findingsCount) rawProgress
  { currentPhase := currentPhase
    filesScanned := filesScanned
    findingsCount := findingsCount
    progress := progress
    maxProgressAfter := progress
    logs := (state.map (·.logs)).getD [] }

/-- Clamp a rational to an interval, as the spec's `clamp(x, lo, hi)`. -/
def clamp (x lo hi : ℚ) : ℚ := min (max x lo) hi

/-- The estimator policy exactly as the spec words it, for comparison
with `calculateProgress`: `not-started` 5; `scanning`
`min + (max-min) * clamp(filesScanned / 50, 0, 1)`; `analyzing`
`min + (max-min) * clamp(findingsCount / 25, 0, 1)`; `documenting` 85;
`complete` 100. -/
def estimateSpec (phase : ResearchPhase)
    (filesScanned : ℕ) (findingsCount : ℕ) : ℚ :=
  match phase with
  | .idle => 5
  | .scanning => 5 + 20 * clamp ((filesScanned : ℚ) / 50) 0 1
  | .analyzing => 25 + 50 * clamp ((findingsCount : ℚ) / 25) 0 1
  | .documenting => 85
  | .complete => 100

/-- Presentation tag computed for each log entry in the activity panel. -/
inductive LogTag where
  | success
  | error
  | normal
deriving DecidableEq

/-- JavaScript's `String.prototype.includes`: whether `pat` occurs as a
contiguous substring of `s`. -/
def stringIncludes (s pat : String) : Bool :=
  s.toList.tails.any (fun t => pat.toList.isPrefixOf t)

/-- The log-entry tagging chain from the activity panel (lines 481-491):
`research_complete` / `research_finalized` entries get the
terminal-success styling, otherwise entries whose `eventType` contains
`error` get the error styling, and all remaining entries the normal
one. -/
def tagOf (eventType : String) : LogTag :=
  if eventType == "research_complete" || eventType == "research_finalized" then
    .success
  else if stringIncludes eventType "error" then
    .error
  else
    .normal

/-- Run the monotonic guard over a whole session: each step supplies the
reset flag and the raw estimate for one render pass; the list of values
actually displayed is returned. -/
def guardSeq (maxSeen : ℚ) : List (Bool × ℚ) → List ℚ
  | [] => []
  | (r, x) :: rest =>
      let m := guardStep maxSeen r x
      m :: guardSeq m rest

/-- Events that touch `maxProgressRef` during a session: the mount /
projectName-change effect (lines 213-218), and an ordinary render pass. -/
inductive SessionEvent where
  | attach
  | render (state : Option ReconciledState)

/-- Effect of one session event on the stored `maxProgressRef` value: the
attach effect zeroes it unconditionally; a render pass runs the guard. -/
def sessionStep (maxProgress : ℚ) : SessionEvent → ℚ
  | .attach => 0
  | .render st => (renderStep maxProgress st).maxProgressAfter

/-- Modelled from the spec: the generation-counter cancellation guard of
§5.  The pull/WebSocket lifecycle hook that implements stale-response
discard is not among the sources here (only its caller, the `useQuery`
configuration, is), so the session book-keeping is taken from the spec's
words: the session stores the current generation id and the id of the
newest completed request whose response was applied. -/
structure PullSession where
  gen : ℕ
  lastApplied : Option ℕ
  snapshot : Option ApiStatus
deriving DecidableEq

/-- Modelled from the spec: a pull response carries the generation it was
issued under, its request id (request ids increase with issue order
within a generation), and the payload. -/
structure PullResponse where
  gen : ℕ
  reqId : ℕ
  payload : ApiStatus
deriving DecidableEq

/-- Modelled from the spec: each attach increments the generation id and
discards all per-session pull state. -/
def attachSession (s : PullSession) : PullSession :=
  { gen := s.gen + 1, lastApplied := none, snapshot := none }

/-- Modelled from the spec: a completing pull response is applied only if
its generation matches the session's current generation and no request
at least as new has already completed; otherwise it is discarded and the
session is unchanged. -/
def applyResponse (s : PullSession) (r : PullResponse) : PullSession :=
  if r.gen ≠ s.gen then s
  else
    match s.lastApplied with
    | some j =>
        if r.reqId ≤ j then s
        else { s with lastApplied := some r.reqId, snapshot := some r.payload }
    | none => { s with lastApplied := some r.reqId, snapshot := some r.payload }

/-- Without a reset, the guard returns the maximum of the stored value
and the raw estimate. -/
theorem guardStep_false_eq_max (m x : ℚ) : guardStep m false x = max m x := by
  by_cases h : x > m
  · simp [guardStep, h, max_eq_right (le_of_lt h)]
  · simp [guardStep, h, max_eq_left (le_of_not_lt h)]

/-- With a reset active, the guard returns the maximum of zero and the
raw estimate. -/
theorem guardStep_true_eq_max (m x : ℚ) : guardStep m true x = max 0 x := by
  by_cases h : x > (0 : ℚ)
  · simp [guardStep, h, max_eq_right (le_of_lt h)]
  · simp [guardStep, h, max_eq_left (le_of_not_lt h)]

/-- The guard's output sequence, with the starting value consed on, is a
non-decreasing chain when no step resets. -/
theorem guardSeq_chain_cons (steps : List (Bool × ℚ)) :
    ∀ m : ℚ, (∀ p ∈ steps, p.1 = false) →
      List.Chain' (· ≤ ·) (m :: guardSeq m steps) := by
  induction steps with
  | nil => intro m _; simp [guardSeq]
  | cons p rest ih =>
      intro m h
      obtain ⟨r, x⟩ := p
      have hr : r = false := h _ (List.mem_cons_self _ _)
      subst hr
      have hrest : ∀ q ∈ rest, q.1 = false :=
        fun q hq => h q (List.mem_cons_of_mem _ hq)
      simp only [guardSeq]
      rw [List.chain'_cons]
      exact ⟨by rw [guardStep_false_eq_max]; exact le_max_left _ _, ih _ hrest⟩

/-- C1: whenever a pulled snapshot is present, the reconciled state's
phase, filesScanned, findingsCount and finalized are taken from that
pulled snapshot (with the component's defaults for absent fields), and
counter values carried by pushed events are ignored; in particular, for
pulled phase `analyzing` with 10 files scanned and 3 findings, the
reconciled filesScanned is 10 whatever the pushed state reports. -/
theorem pulled_snapshot_owns_counters :
    (∀ (a : ApiStatus) (ws : WsResearchState),
      researchState (some a) (some ws) = some
        { phase := a.phase.getD .idle
          filesScanned := a.files_scanned.getD 0
          findingsCount := a.findings_count.getD 0
          finalized := a.finalized.getD false
          currentTool := ws.currentTool
          filesWritten := []
          logs := ws.logs }) ∧
    (∀ ws : WsResearchState,
      (researchState
        (some { phase := some .analyzing, files_scanned := some 10,
                findings_count := some 3, finalized := none })
        (some ws)).map (·.filesScanned) = some 10) := by
  constructor
  · intro a ws
    simp [researchState]
  · intro ws
    simp [researchState]

/-- C6: when no pulled snapshot has arrived but pushed state exists, the
reconciled state zeroes both counters while keeping the push channel's
logs and current tool (and phase and finalized flag) visible. -/
theorem push_only_counters_zeroed :
    ∀ (ws : WsResearchState) (m : ℚ),
      researchState none (some ws) = some
        { phase := ws.phase, filesScanned := 0, findingsCount := 0,
          finalized := ws.finalized, currentTool := ws.currentTool,
          filesWritten := ws.filesWritten, logs := ws.logs } ∧
      (renderStep m (researchState none (some ws))).logs = ws.logs ∧
      (renderStep m (researchState none (some ws))).filesScanned = 0 ∧
      (renderStep m (researchState none (some ws))).findingsCount = 0 := by
  intro ws m
  refine ⟨by simp [researchState], ?_, ?_, ?_⟩ <;>
    simp [researchState, renderStep]

/-- C9: in the push-only window the reconciled phase is the phase the
push channel reports, so the displayed phase and the estimator branch
(applied to the zeroed counters) are determined by the push channel. -/
theorem push_only_phase_from_ws :
    ∀ (ws : WsResearchState) (m : ℚ),
      (researchState none (some ws)).map (·.phase) = some ws.phase ∧
      (renderStep m (researchState none (some ws))).currentPhase = ws.phase ∧
      (renderStep m (researchState none (some ws))).maxProgressAfter =
        guardStep m (resetCondition ws.phase 0) (calculateProgress ws.phase 0 0) := by
  intro ws m
  refine ⟨by simp [researchState], ?_, ?_⟩ <;>
    simp [researchState, renderStep]

/-- C10: with neither a pulled snapshot nor pushed state the reconciled
state is `none` and the view defaults to phase `idle`, displayed
progress exactly 5 (never 0), zero counters and an empty log list. -/
theorem no_data_defaults :
    ∀ m : ℚ,
      researchState none none = none ∧
      renderStep m (researchState none none) =
        { currentPhase := .idle, filesScanned := 0, findingsCount := 0,
          progress := 5, maxProgressAfter := 5, logs := [] } := by
  intro m
  refine ⟨rfl, ?_⟩
  simp [researchState, renderStep, resetCondition, calculateProgress, guardStep]

/-- C5: the progress estimator equals the spec's piecewise policy for
every phase and all counter values, each result lies within the phase's
nominal interval and within [0, 100], and the scanning boundary values
are 5 at 0 files, 25 at 50 files, and 25 (clamped) at 500 files. -/
theorem estimator_matches_policy :
    (∀ (ph : ResearchPhase) (f c : ℕ),
        calculateProgress ph f c = estimateSpec ph f c ∧
        progressMin ph ≤ calculateProgress ph f c ∧
        calculateProgress ph f c ≤ progressMax ph ∧
        0 ≤ calculateProgress ph f c ∧
        calculateProgress ph f c ≤ 100) ∧
    calculateProgress .scanning 0 0 = 5 ∧
    calculateProgress .scanning 50 0 = 25 ∧
    calculateProgress .scanning 500 0 = 25 := by
  refine ⟨fun ph f c => ?_,
    by norm_num [calculateProgress],
    by norm_num [calculateProgress],
    by norm_num [calculateProgress]⟩
  cases ph with
  | idle => norm_num [calculateProgress, estimateSpec, progressMin, progressMax]
  | documenting => norm_num [calculateProgress, estimateSpec, progressMin, progressMax]
  | complete => norm_num [calculateProgress, estimateSpec, progressMin, progressMax]
  | scanning =>
      have hnn : (0 : ℚ) ≤ (f : ℚ) / 50 := by positivity
      have h0 : (0 : ℚ) ≤ min ((f : ℚ) / 50) 1 := le_min hnn (by norm_num)
      have h1 : min ((f : ℚ) / 50) 1 ≤ 1 := min_le_right _ _
      refine ⟨?_, ?_, ?_, ?_, ?_⟩
      · simp only [calculateProgress, estimateSpec, clamp, max_eq_left hnn]
        ring
      all_goals simp only [calculateProgress, progressMin, progressMax]
      all_goals nlinarith
  | analyzing =>
      have hnn : (0 : ℚ) ≤ (c : ℚ) / 25 := by positivity
      have h0 : (0 : ℚ) ≤ min ((c : ℚ) / 25) 1 := le_min hnn (by norm_num)
      have h1 : min ((c : ℚ) / 25) 1 ≤ 1 := min_le_right _ _
      refine ⟨?_, ?_, ?_, ?_, ?_⟩
      · simp only [calculateProgress, estimateSpec, clamp, max_eq_left hnn]
        ring
      all_goals simp only [calculateProgress, progressMin, progressMax]
      all_goals nlinarith

/-- C2: over any sequence of admissions within one session in which no
step carries a reset, the sequence of values the guard returns is
non-decreasing, whatever raw estimates are fed in. -/
theorem guard_monotone (m : ℚ) (steps : List (Bool × ℚ))
    (h : ∀ p ∈ steps, p.1 = false) :
    List.Chain' (· ≤ ·) (guardSeq m steps) :=
  (guardSeq_chain_cons steps m h).tail

/-- Witness for C2 at a concrete no-reset run. -/
theorem guard_monotone_witness :
    List.Chain' (· ≤ ·) (guardSeq 0 [(false, 7), (false, 3), (false, 12)]) :=
  guard_monotone 0 [(false, 7), (false, 3), (false, 12)] (by decide)

/-- C4: after the guard's stored maximum has reached X > 0, an admission
with a reset active and raw value Y with 0 < Y < X returns exactly Y,
not the maximum of X and Y. -/
theorem reset_returns_lower (X Y : ℚ) (hY : 0 < Y) (hYX : Y < X) :
    guardStep X true Y = Y := by
  simp [guardStep, hY]

/-- Witness for C4 with X = 10 and Y = 3. -/
theorem reset_returns_lower_witness : guardStep 10 true 3 = 3 :=
  reset_returns_lower 10 3 (by norm_num) (by norm_num)

/-- C3: the guard's stored maximum is zeroed exactly under the reset
conditions.  The render-time reset test holds iff the reconciled state
is absent, its phase is `idle`, or its phase is `scanning` with zero
findings; when it fails the render pass keeps the stored maximum (only
ever raising it to the raw estimate), when it holds the stored maximum
is replaced by the maximum of zero and the raw estimate; and the
(re)attach effect zeroes the stored maximum unconditionally. -/
theorem reset_exactly (st : Option ReconciledState) (m : ℚ) :
    (resetCondition ((st.map (·.phase)).getD .idle)
        ((st.map (·.findingsCount)).getD 0) = true ↔
      (st = none ∨ ∃ r, st = some r ∧
        (r.phase = .idle ∨ (r.phase = .scanning ∧ r.findingsCount = 0)))) ∧
    (resetCondition ((st.map (·.phase)).getD .idle)
        ((st.map (·.findingsCount)).getD 0) = false →
      (renderStep m st).maxProgressAfter =
        max m (calculateProgress ((st.map (·.phase)).getD .idle)
          ((st.map (·.filesScanned)).getD 0) ((st.map (·.findingsCount)).getD 0))) ∧
    (resetCondition ((st.map (·.phase)).getD .idle)
        ((st.map (·.findingsCount)).getD 0) = true →
      (renderStep m st).maxProgressAfter =
        max 0 (calculateProgress ((st.map (·.phase)).getD .idle)
          ((st.map (·.filesScanned)).getD 0) ((st.map (·.findingsCount)).getD 0))) ∧
    sessionStep m SessionEvent.attach = 0 := by
  refine ⟨?_, fun hf => ?_, fun ht => ?_, rfl⟩
  · cases st with
    | none => simp [resetCondition]
    | some r =>
        simp only [Option.map_some, Option.getD_some, resetCondition,
          Bool.or_eq_true, Bool.and_eq_true, beq_iff_eq, Option.some.injEq,
          reduceCtorEq, false_or]
        constructor
        · rintro (h | ⟨h1, h2⟩)
          · exact ⟨r, rfl, Or.inl h⟩
          · exact ⟨r, rfl, Or.inr ⟨h1, by simpa using h2⟩⟩
        · rintro ⟨r', hr', h | ⟨h1, h2⟩⟩
          · cases hr'; exact Or.inl h
          · cases hr'; exact Or.inr ⟨h1, by simpa using h2⟩
  · simp only [renderStep, hf]
    rw [guardStep_false_eq_max]
  · simp only [renderStep, ht]
    rw [guardStep_true_eq_max]

/-- Witness for C3: the reset test holds for an absent state, a
non-reset render from phase `analyzing` keeps the stored maximum, and
the attach effect zeroes it. -/
theorem reset_exactly_witness :
    (resetCondition ((Option.map (·.phase) (none : Option ReconciledState)).getD .idle)
        ((Option.map (·.findingsCount) (none : Option ReconciledState)).getD 0) = true ↔
      ((none : Option ReconciledState) = none ∨ ∃ r, (none : Option ReconciledState) = some r ∧
        (r.phase = .idle ∨ (r.phase = .scanning ∧ r.findingsCount = 0)))) ∧
    (renderStep 40 (some ⟨.analyzing, 10, 3, false, none, [], []⟩)).maxProgressAfter =
      max 40 (calculateProgress .analyzing 10 3) ∧
    sessionStep 40 SessionEvent.attach = 0 :=
  ⟨(reset_exactly none 40).1,
   (reset_exactly (some ⟨.analyzing, 10, 3, false, none, [], []⟩) 40).2.1 (by decide),
   (reset_exactly none 40).2.2.2⟩

/-- C8: the aggregator's tagging — an entry is tagged as a
terminal-success marker iff its eventType is exactly
`research_complete` or `research_finalized`; otherwise it is tagged as
an error entry iff its eventType contains the substring `error`; all
remaining entries carry the normal tag. -/
theorem log_tagging (e : String) :
    (tagOf e = LogTag.success ↔
      (e = "research_complete" ∨ e = "research_finalized")) ∧
    (¬(e = "research_complete" ∨ e = "research_finalized") →
      (tagOf e = LogTag.error ↔ stringIncludes e "error" = true)) ∧
    (¬(e = "research_complete" ∨ e = "research_finalized") →
      stringIncludes e "error" = false → tagOf e = LogTag.normal) := by
  by_cases h : e = "research_complete" ∨ e = "research_finalized"
  · have hb : (e == "research_complete" || e == "research_finalized") = true := by
      rcases h with rfl | rfl <;> simp
    refine ⟨?_, fun hn => absurd h hn, fun hn => absurd h hn⟩
    simp [tagOf, hb, h]
  · push_neg at h
    obtain ⟨h1, h2⟩ := h
    have hb : (e == "research_complete" || e == "research_finalized") = false := by
      simp [h1, h2]
    refine ⟨?_, fun _ => ?_, fun _ hinc => ?_⟩
    · apply iff_of_false
      · simp only [tagOf, hb, Bool.false_eq_true, if_false]
        by_cases hi : stringIncludes e "error" <;> simp [hi]
      · tauto
    · simp only [tagOf, hb, Bool.false_eq_true, if_false]
      by_cases hi : stringIncludes e "error" <;> simp [hi]
    · simp [tagOf, hb, hinc]

/-- Witness for C8 at three concrete event types. -/
theorem log_tagging_witness :
    tagOf "tool_error" = LogTag.error ∧
    tagOf "research_complete" = LogTag.success ∧
    tagOf "tool_use" = LogTag.normal :=
  ⟨((log_tagging "tool_error").2.1 (by decide)).mpr (by decide),
   (log_tagging "research_complete").1.mpr (Or.inl rfl),
   (log_tagging "tool_use").2.2 (by decide) (by decide)⟩

/-- C7 (modelled from the spec, §5): a pulled response is never applied
when a newer request of the same session has already completed; each
attach increments the generation id; and any response whose generation
does not match the current one — in particular one issued under an
earlier generation, after a detach/re-attach — is discarded without
mutating the session. -/
theorem stale_response_discarded :
    (∀ (s : PullSession) (r : PullResponse) (j : ℕ),
        s.lastApplied = some j → r.reqId < j → applyResponse s r = s) ∧
    (∀ (s : PullSession) (r : PullResponse),
        r.gen ≠ s.gen → applyResponse s r = s) ∧
    (∀ s : PullSession, (attachSession s).gen = s.gen + 1) ∧
    (∀ (s : PullSession) (r : PullResponse),
        r.gen ≤ s.gen → applyResponse (attachSession s) r = attachSession s) := by
  have hgen : ∀ (s : PullSession) (r : PullResponse),
      r.gen ≠ s.gen → applyResponse s r = s := by
    intro s r hne
    simp [applyResponse, hne]
  refine ⟨?_, hgen, fun s => rfl, ?_⟩
  · intro s r j hj hlt
    by_cases hg : r.gen = s.gen
    · simp [applyResponse, hg, hj, Nat.le_of_lt hlt]
    · exact hgen s r hg
  · intro s r hle
    exact hgen _ _ (by simp [attachSession]; omega)

/-- Witness for C7: a response older than the newest completed request
is discarded, and a previous-generation response arriving after a
re-attach is discarded. -/
theorem stale_response_discarded_witness :
    applyResponse ⟨2, some 5, none⟩ ⟨2, 3, ⟨none, none, none, none⟩⟩ =
      ⟨2, some 5, none⟩ ∧
    applyResponse (attachSession ⟨2, some 5, none⟩) ⟨2, 6, ⟨none, none, none, none⟩⟩ =
      attachSession ⟨2, some 5, none⟩ :=
  ⟨stale_response_discarded.1 ⟨2, some 5, none⟩ ⟨2, 3, ⟨none, none, none, none⟩⟩ 5
      rfl (by decide),
   stale_response_discarded.2.2.2 ⟨2, some 5, none⟩ ⟨2, 6, ⟨none, none, none, none⟩⟩
      (by decide)⟩
